import Mathlib

/-!
A verification development for a small retrieval-augmented question-answering
system.  The Python modules `ingest.py`, `generator.py`, `retriever.py` and
`memory.py` are shallowly embedded as executable Lean definitions: Python
floats appearing in the confidence arithmetic are modelled as rationals,
Python strings as `String`/`List Char`, and the external collaborators
(the language model call and the TF-IDF / embedding vectorizers) as opaque
inputs.  The theorems at the end settle the specification claims.
-/

namespace RagSystem

/-! ## Python string primitives (structural recursions on `List Char`) -/

/-- Word counting of Python `text.split()` (no argument): number of maximal
runs of non-whitespace characters.  The boolean records whether the previous
character was inside a word. -/
def wordCountAux : List Char → Bool → Nat
  | [], _ => 0
  | c :: cs, inw =>
    if c.isWhitespace then wordCountAux cs false
    else (if inw then 0 else 1) + wordCountAux cs true

def wordCount (s : String) : Nat := wordCountAux s.data false

/-- Python `str.strip()` with no argument: remove leading and trailing
whitespace. -/
def pyStrip (s : String) : String :=
  ⟨((s.data.dropWhile Char.isWhitespace).reverse.dropWhile Char.isWhitespace).reverse⟩

/-! ## `ingest.py` — chunker -/

/-- `estimate_tokens` from `ingest.py`: `max(1, int(words / 1.3))`.
Python's `int()` truncates the float quotient; for word counts in any
realistic range this equals the rational floor, i.e. `words * 10 / 13`
in natural-number division. -/
def estimate_tokens (text : String) : Nat :=
  max 1 (wordCount text * 10 / 13)

/-- The token estimate as the specification words it:
`max(1, round(wordCount(s) / 1.3))` with rounding to the nearest integer. -/
def claimed_estimate_tokens (s : String) : ℤ :=
  max 1 (round ((wordCount s : ℚ) / (13/10)))

/-- Sentence splitting of `chunk_text`: `re.split(r'(?<=[.!?])\s+', text)`.
A maximal whitespace run immediately preceded by `.`, `!` or `?` is a
delimiter.  `prev` is the character before the current position; the third
argument is `some cur` while a piece is being accumulated (in reverse) and
`none` while the delimiter's whitespace run is being consumed. -/
def splitSentAux : List Char → Option Char → Option (List Char) → List (List Char)
  | [], _, some cur => [cur.reverse]
  | [], _, none => [[]]
  | c :: cs, prev, some cur =>
    if c.isWhitespace ∧ (prev = some '.' ∨ prev = some '!' ∨ prev = some '?') then
      cur.reverse :: splitSentAux cs (some c) none
    else
      splitSentAux cs (some c) (some (c :: cur))
  | c :: cs, _, none =>
    if c.isWhitespace then splitSentAux cs (some c) none
    else splitSentAux cs (some c) (some [c])

def splitSentences (text : String) : List String :=
  (splitSentAux text.data none (some [])).map (fun l => ⟨l⟩)

/-- Python `s[-k:]` for a natural `k`: when `k = 0` the slice bound `-0`
equals `0`, so the WHOLE string is returned; for `k > 0` it is the last
`min k (length s)` characters. -/
def pySliceLast (s : String) (k : Nat) : String :=
  if k = 0 then s else ⟨s.data.drop (s.data.length - k)⟩

/-- The sentence-accumulation loop of `chunk_text`. -/
def chunkLoop (chunk_size overlap : Nat) :
    List String → String → Nat → List String → List String
  | [], cur, _, acc => if pyStrip cur ≠ "" then acc ++ [pyStrip cur] else acc
  | s :: rest, cur, tok, acc =>
    let st := estimate_tokens s
    if tok + st > chunk_size ∧ cur ≠ "" then
      let ncur := pySliceLast cur (chunk_size * overlap / 100) ++ " " ++ s
      chunkLoop chunk_size overlap rest ncur (estimate_tokens ncur) (acc ++ [pyStrip cur])
    else
      chunkLoop chunk_size overlap rest (cur ++ " " ++ s) (tok + st) acc

/-- `chunk_text` from `ingest.py`. -/
def chunk_text (text : String) (chunk_size : Nat := 400) (overlap : Nat := 80) :
    List String :=
  chunkLoop chunk_size overlap (splitSentences text) "" 0 []

/-! ## Data model (`schemas.py`, retriever result tuples) -/

/-- The metadata dict attached to a chunk (`DocumentChunk.metadata`). -/
structure ChunkMeta where
  document_name : String
  page_number : Int
  chunk_id : String
deriving DecidableEq

/-- One element of the retriever's result list: a `(text, metadata, similarity)`
tuple. -/
structure RetrievedChunk where
  text : String
  meta : ChunkMeta
  score : ℚ
deriving DecidableEq

/-- `Citation` from `schemas.py`. -/
structure Citation where
  document : String
  page : Int
  chunk_id : String
deriving DecidableEq

/-! ## More Python string primitives -/

/-- Python `str.lower()` (ASCII case folding suffices for the texts involved). -/
def pyLower (s : String) : String := ⟨s.data.map Char.toLower⟩

/-- Python `s[:n]`. -/
def pyTake (s : String) (n : Nat) : String := ⟨s.data.take n⟩

/-- Case-sensitive test that `needle` is an initial segment of `hay`. -/
def litTest : List Char → List Char → Bool
  | [], _ => true
  | _ :: _, [] => false
  | p :: ps, c :: cs => p == c && litTest ps cs

/-- Python `needle in hay` (substring containment). -/
def hasSub : List Char → List Char → Bool
  | [], needle => needle.isEmpty
  | c :: cs, needle => litTest needle (c :: cs) || hasSub cs needle

def containsStr (s sub : String) : Bool := hasSub s.data sub.data

/-! ## `generator.py` — regex sanitizer

Python's `re.sub(pattern, repl, s, flags=re.IGNORECASE)` is embedded by a
hand compilation of each of the eight fixed patterns into a matcher
`List Char → Option (List Char)` that, at a given position, returns the
rest of the input after a match (honouring the patterns' alternation order,
greedy optional parts with backtracking, and trailing `\b` word
boundaries).  The substitution engine scans left to right, checks the
leading `\b` (every pattern starts with a word character, so it holds iff
the previous character is absent or a non-word character), and replaces
each non-overlapping leftmost match. -/

/-- `\w` of the patterns involved (ASCII). -/
def isWordChar (c : Char) : Bool := c.isAlphanum || c = '_'

/-- Trailing `\b` after a match ending in a word character: the next
character is absent or is a non-word character. -/
def noWordAhead : List Char → Bool
  | [] => true
  | c :: _ => !isWordChar c

/-- Whether a word character comes next (trailing `\b` after a non-word
character such as the `-` of `gpt-`). -/
def wordAhead : List Char → Bool
  | [] => false
  | c :: _ => isWordChar c

/-- Case-insensitive literal match: `pat` is given in lower case; returns the
rest of the input after the literal. -/
def dropLit : List Char → List Char → Option (List Char)
  | [], cs => some cs
  | _ :: _, [] => none
  | p :: ps, c :: cs => if c.toLower == p then dropLit ps cs else none

/-- Alternation of plain literals (no trailing boundary): first match wins. -/
def altLit : List String → List Char → Option (List Char)
  | [], _ => none
  | w :: ws, cs =>
    match dropLit w.data cs with
    | some r => some r
    | none => altLit ws cs

/-- Alternation of literals each followed by `\b`: alternatives are tried in
order, and an alternative whose boundary fails falls through to the next. -/
def altWordEnd : List String → List Char → Option (List Char)
  | [], _ => none
  | w :: ws, cs =>
    match dropLit w.data cs with
    | some r => if noWordAhead r then some r else altWordEnd ws cs
    | none => altWordEnd ws cs

/-- An optional group `(w₁ |w₂ |…)?` with full backtracking into the
continuation `k`; the empty alternative is tried last. -/
def tryOpts : List String → List Char → (List Char → Option (List Char)) → Option (List Char)
  | [], cs, k => k cs
  | w :: ws, cs, k =>
    match dropLit w.data cs with
    | some r =>
      match k r with
      | some out => some out
      | none => tryOpts ws cs k
    | none => tryOpts ws cs k

/-- `\b(trained by|developed by|created by|built by|made by)\s*(google|openai|anthropic|meta|microsoft)\b` -/
def patVendor (cs : List Char) : Option (List Char) :=
  match altLit ["trained by", "developed by", "created by", "built by", "made by"] cs with
  | none => none
  | some r1 =>
    altWordEnd ["google", "openai", "anthropic", "meta", "microsoft"]
      (r1.dropWhile Char.isWhitespace)

/-- The `gpt-?\d*\b` alternative: greedy `-?` and `\d*` with the backtracking
Python performs when the trailing boundary fails. -/
def gptBranch (cs : List Char) : Option (List Char) :=
  match dropLit "gpt".data cs with
  | none => none
  | some r1 =>
    match r1 with
    | '-' :: r2 =>
      let r3 := r2.dropWhile Char.isDigit
      if r3.length < r2.length then
        -- at least one digit follows the `-`; on boundary failure after the
        -- greedy digit run, every shorter non-empty run also fails (a digit
        -- is a word character), and the empty run matches `gpt-` with the
        -- boundary between `-` and the first digit
        if noWordAhead r3 then some r3 else some r2
      else
        -- no digits: `gpt-` ends in a non-word character, so its boundary
        -- holds iff a word character follows; otherwise `gpt` alone matches
        if wordAhead r2 then some r2 else some r1
    | _ =>
      let r3 := r1.dropWhile Char.isDigit
      if noWordAhead r3 then some r3 else none

/-- `\b(gemini|gpt-?\d*|claude|llama|palm|bard)\b` -/
def patModel (cs : List Char) : Option (List Char) :=
  match altWordEnd ["gemini"] cs with
  | some r => some r
  | none =>
    match gptBranch cs with
    | some r => some r
    | none => altWordEnd ["claude", "llama", "palm", "bard"] cs

/-- `\bi am (a |an )?(large )?language model\b` -/
def patIAm (cs : List Char) : Option (List Char) :=
  match dropLit "i am ".data cs with
  | none => none
  | some r1 =>
    tryOpts ["a ", "an "] r1 (fun r2 =>
      tryOpts ["large "] r2 (fun r3 =>
        match dropLit "language model".data r3 with
        | some r4 => if noWordAhead r4 then some r4 else none
        | none => none))

/-- `\bi'm (a |an )?(large )?language model\b` -/
def patIm (cs : List Char) : Option (List Char) :=
  match dropLit "i'm ".data cs with
  | none => none
  | some r1 =>
    tryOpts ["a ", "an "] r1 (fun r2 =>
      tryOpts ["large "] r2 (fun r3 =>
        match dropLit "language model".data r3 with
        | some r4 => if noWordAhead r4 then some r4 else none
        | none => none))

/-- `\bas an? (ai|artificial intelligence|language model|llm)\b` -/
def patAsAn (cs : List Char) : Option (List Char) :=
  match dropLit "as a".data cs with
  | none => none
  | some r1 =>
    tryOpts ["n"] r1 (fun r2 =>
      match dropLit [' '] r2 with
      | some r3 =>
        altWordEnd ["ai", "artificial intelligence", "language model", "llm"] r3
      | none => none)

/-- The tail `w₂\b` of a credential pattern. -/
def wordPairTail (w2 : String) (r : List Char) : Option (List Char) :=
  match dropLit w2.data r with
  | some r3 => if noWordAhead r3 then some r3 else none
  | none => none

/-- `\bw₁[_\s]?w₂\b` (the credential patterns `api key`, `secret key`,
`access token`): greedy optional separator with fallback. -/
def wordPair (w1 w2 : String) (cs : List Char) : Option (List Char) :=
  match dropLit w1.data cs with
  | none => none
  | some r1 =>
    match r1 with
    | c :: r2 =>
      if c == '_' || c.isWhitespace then
        match wordPairTail w2 r2 with
        | some r3 => some r3
        | none => wordPairTail w2 r1
      else wordPairTail w2 r1
    | [] => none

/-- The eight `sensitive_patterns` of `_sanitize_answer`, in source order. -/
def sensitiveMatchers : List (List Char → Option (List Char)) :=
  [patVendor, patModel, patIAm, patIm, patAsAn,
   wordPair "api" "key", wordPair "secret" "key", wordPair "access" "token"]

def redactedChars : List Char := "[REDACTED]".data

/-- Leading `\b` of a pattern that starts with a word character: it holds iff
the previous character is absent or a non-word character. -/
def okStart : Option Char → Bool
  | none => true
  | some c => !isWordChar c

/-- One pass of `re.sub(pattern, '[REDACTED]', s, flags=re.IGNORECASE)`:
scan left to right, replace each non-overlapping leftmost match.  The fuel
argument only bounds the recursion (each step consumes at least one input
character, so `length + 1` steps always suffice). -/
def subPatAux (m : List Char → Option (List Char)) : Nat → List Char → Option Char → List Char
  | 0, l, _ => l
  | _ + 1, [], _ => []
  | fuel + 1, c :: cs, prev =>
    match (if okStart prev then m (c :: cs) else none) with
    | some rest =>
      let n := (c :: cs).length - rest.length
      if n = 0 then c :: subPatAux m fuel cs (some c)
      else redactedChars ++ subPatAux m fuel rest (((c :: cs).take n).getLast?)
    | none => c :: subPatAux m fuel cs (some c)

def subPat (m : List Char → Option (List Char)) (l : List Char) : List Char :=
  subPatAux m (l.length + 1) l none

/-- The pattern loop of `_sanitize_answer`. -/
def applyAllPatterns (l : List Char) : List Char :=
  sensitiveMatchers.foldl (fun s m => subPat m s) l

/-- Python `s.replace('[REDACTED]', '')`. -/
def removeRedAux : Nat → List Char → List Char
  | 0, l => l
  | _ + 1, [] => []
  | fuel + 1, c :: cs =>
    if litTest redactedChars (c :: cs) then removeRedAux fuel ((c :: cs).drop 10)
    else c :: removeRedAux fuel cs

def removeRedacted (l : List Char) : List Char := removeRedAux (l.length + 1) l

/-- `re.sub(r'\s+', ' ', s)`: collapse every whitespace run to one space. -/
def collapseWsAux : List Char → Bool → List Char
  | [], _ => []
  | c :: cs, prevWs =>
    if c.isWhitespace then
      (if prevWs then collapseWsAux cs true else ' ' :: collapseWsAux cs true)
    else c :: collapseWsAux cs false

def collapseWs (l : List Char) : List Char := collapseWsAux l false

def trimL (l : List Char) : List Char :=
  ((l.dropWhile Char.isWhitespace).reverse.dropWhile Char.isWhitespace).reverse

def safe_fallback : String :=
  "I'm RAG Assistant, a document analysis tool. I'm here to help you understand your uploaded documents. Please ask me questions about the content you've uploaded."

/-- `_sanitize_answer` from `generator.py`: replace pattern matches with
`[REDACTED]`; if that marker is present, delete it, collapse whitespace,
strip, and substitute the canned fallback when the result is empty or
shorter than 20 characters. -/
def _sanitize_answer (answer : String) : String :=
  let s1 := applyAllPatterns answer.data
  if hasSub s1 redactedChars then
    let s2 := trimL (collapseWs (removeRedacted s1))
    if s2 = [] ∨ s2.length < 20 then safe_fallback else ⟨s2⟩
  else ⟨s1⟩

/-- Whether some position of `l` carries a match of one of the eight
sensitive patterns (with its word boundaries), case-insensitively. -/
def matchesAt (m : List Char → Option (List Char)) : List Char → Option Char → Bool
  | [], _ => false
  | c :: cs, prev =>
    (okStart prev && (m (c :: cs)).isSome) || matchesAt m cs (some c)

def containsSensitive (l : List Char) : Bool :=
  sensitiveMatchers.any (fun m => matchesAt m l none)

/-! ## `generator.py` — confidence, citations, answer assembly -/

def low_confidence_phrases : List String :=
  ["insufficient information", "no relevant", "cannot find",
   "don't have", "not found", "unable to", "error"]

/-- `_calculate_confidence` from `src/backend/generator.py` (floats as
rationals: 0.4 = 2/5, 0.7 = 7/10, 0.3 = 3/10, 0.15 = 3/20, 0.1 = 1/10,
0.05 = 1/20, 0.02 = 1/50, 0.95 = 19/20). -/
def _calculate_confidence (query answer : String)
    (retrieved_chunks : List RetrievedChunk) : ℚ :=
  let answer_lower := pyLower answer
  if low_confidence_phrases.any (fun p => containsStr answer_lower p) then 2/5
  else
    let base_confidence : ℚ := if retrieved_chunks ≠ [] then 7/10 else 3/10
    let word_count := wordCount answer
    let length_boost : ℚ :=
      if word_count > 100 then 3/20
      else if word_count > 50 then 1/10
      else if word_count > 20 then 1/20
      else 0
    let source_boost : ℚ := min (1/10) (retrieved_chunks.length * (1/50))
    let citation_boost : ℚ :=
      if containsStr answer_lower "page" || containsStr answer_lower "document" then 1/20
      else 0
    min (19/20) (max (3/10) (base_confidence + length_boost + source_boost + citation_boost))

def low_confidence_phrases_rs : List String :=
  ["insufficient information", "no relevant", "cannot find", "not found", "unable to"]

/-- `_calculate_confidence` from `src/rag-system/backend/generator.py` (the
TF-IDF variant: no citation-keyword bonus). -/
def calculate_confidence_rs (query answer : String)
    (retrieved_chunks : List RetrievedChunk) : ℚ :=
  if low_confidence_phrases_rs.any (fun p => containsStr (pyLower answer) p) then 2/5
  else
    let base : ℚ := if retrieved_chunks ≠ [] then 7/10 else 3/10
    let word_count := wordCount answer
    let length_boost : ℚ :=
      if word_count > 100 then 3/20
      else if word_count > 50 then 1/10
      else if word_count > 20 then 1/20
      else 0
    let source_boost : ℚ := min (1/10) (retrieved_chunks.length * (1/50))
    min (19/20) (max (3/10) (base + length_boost + source_boost))

/-- `_extract_citations`: one citation per first-seen
`(document_name, page_number)` pair. -/
def extractCitationsAux : List RetrievedChunk → List (String × Int) → List Citation
  | [], _ => []
  | ch :: rest, seen =>
    let key := (ch.meta.document_name, ch.meta.page_number)
    if seen.contains key then extractCitationsAux rest seen
    else
      ⟨ch.meta.document_name, ch.meta.page_number, ch.meta.chunk_id⟩ ::
        extractCitationsAux rest (key :: seen)

def _extract_citations (retrieved_chunks : List RetrievedChunk) : List Citation :=
  extractCitationsAux retrieved_chunks []

def no_citation_phrases : List String :=
  ["does not contain", "no information", "cannot provide", "cannot find",
   "not found in", "no relevant", "insufficient information",
   "don't have information", "unable to find", "not mentioned",
   "not available", "i'm rag assistant", "i am rag assistant",
   "i cannot answer", "outside the scope", "not in the document",
   "the document doesn't", "the documents don't", "please upload"]

/-- `_should_show_citations` from `src/backend/generator.py`. -/
def should_show_citations (answer : String) : Bool :=
  !(no_citation_phrases.any (fun p => containsStr (pyLower answer) p))

def upload_first_msg : String :=
  "Please upload a document first, then ask questions about its content."

def no_relevant_msg : String := "No relevant information found in the documents."

/-- `generate_answer`'s returned dictionary. -/
structure AnswerResult where
  answer : String
  citations : List Citation
  confidence : ℚ
  retrieved_chunks : Nat
deriving DecidableEq

/-- `generate_answer` from `src/backend/generator.py`, from the point where
the generation step (the opaque LLM collaborator or the mock) has produced
the raw answer `answer0`, and no exception occurred: sanitize, score,
citation-gate, and apply the empty-corpus threshold override.  Python's
`if answer:` truthiness is the `≠ ""` tests. -/
def generate_answer_with (query answer0 : String)
    (retrieved_chunks : List RetrievedChunk) (confidence_threshold : ℚ) :
    AnswerResult :=
  let answer1 := if answer0 ≠ "" then _sanitize_answer answer0 else answer0
  let conf0 : ℚ :=
    if answer1 ≠ "" then _calculate_confidence query answer1 retrieved_chunks else 0
  let sc := should_show_citations answer1
  let citations := if sc then _extract_citations retrieved_chunks else []
  let conf1 := if sc then conf0 else min conf0 (1/2)
  let answer2 :=
    if retrieved_chunks.length = 0 ∧ conf1 < confidence_threshold then upload_first_msg
    else answer1
  { answer := if answer2 ≠ "" then answer2 else "Unable to generate answer",
    citations := citations,
    confidence := conf1,
    retrieved_chunks := retrieved_chunks.length }

/-- `_mock_generate_answer` from `src/backend/generator.py` (the chunk tuples
are never `None` and have three components, so the defensive checks of the
source collapse). -/
def mock_generate_answer (query : String)
    (retrieved_chunks : List RetrievedChunk) : String :=
  if retrieved_chunks = [] then no_relevant_msg
  else
    let context_list := (retrieved_chunks.take 3).map (fun ch => pyTake ch.text 500)
    if context_list = [] then no_relevant_msg
    else
      let full_context := String.intercalate "\n\n" context_list
      let context_snippet := pyTake full_context 300
      let ql := pyLower query
      if ["what", "explain", "describe"].any (fun w => containsStr ql w) then
        "Based on the documents: " ++ context_snippet ++
          "... This information is relevant to your question about '" ++ query ++ "'."
      else if ["how", "method", "process"].any (fun w => containsStr ql w) then
        "The documents describe the following approach: " ++ context_snippet ++
          "... This relates to how '" ++ query ++ "' is handled."
      else if ["why", "reason", "cause"].any (fun w => containsStr ql w) then
        "According to the documents: " ++ context_snippet ++
          "... This explains the reasons behind '" ++ query ++ "'."
      else
        "From the documents: " ++ context_snippet ++
          "... This information addresses your question about '" ++ query ++ "'."

/-- `generate_answer` on the mock path (`self.model is None`, the setting of
the pipeline's deterministic tests). -/
def generate_answer_mock (query : String)
    (retrieved_chunks : List RetrievedChunk) (confidence_threshold : ℚ) :
    AnswerResult :=
  generate_answer_with query (mock_generate_answer query retrieved_chunks)
    retrieved_chunks confidence_threshold

/-! ## `retriever.py` — search ordering and MMR re-ranking

The TF-IDF / embedding vectorizations live in external libraries
(scikit-learn, sentence-transformers, numpy); they enter the embedding as
opaque similarity data: `search` takes the per-chunk cosine similarities of
the query as a list parallel to the stored chunks, and `rerank_mmr` takes
the query-relevance and chunk-to-chunk similarity as functions of chunk
positions.  The index arithmetic, ordering and selection loops are
translated from the source. -/

/-- A stored chunk of the TF-IDF retriever (`self.chunks` entries). -/
structure StoredChunk where
  text : String
  meta : ChunkMeta
deriving DecidableEq

/-- `np.argmax`: position of the first occurrence of the maximum. -/
def argmaxAux : List ℚ → Nat → ℚ → Nat → Nat
  | [], bi, _, _ => bi
  | x :: xs, bi, bv, i => if bv < x then argmaxAux xs i x (i + 1) else argmaxAux xs bi bv (i + 1)

def argmaxIdx : List ℚ → Nat
  | [] => 0
  | x :: xs => argmaxAux xs 0 x 1

/-- Stable insertion of index `i` into an ascending run: `i` goes after every
`j` with `key j ≤ key i`. -/
def insertAsc (key : Nat → ℚ) (i : Nat) : List Nat → List Nat
  | [] => [i]
  | j :: l => if key j ≤ key i then j :: insertAsc key i l else i :: j :: l

/-- One executable realisation of `np.argsort` (ascending): a stable
insertion sort of the index range.  numpy's default quicksort fixes the
relative order of equal keys only in its small-array insertion-sort branch
(where it coincides with this function — in particular on every two-element
array); the general theorems below therefore never rely on this function's
tie order and are stated over any admissible ordering (`isArgsortAsc`). -/
def argsortAsc (key : Nat → ℚ) (n : Nat) : List Nat :=
  (List.range n).foldl (fun acc i => insertAsc key i acc) []

/-- The strict order that the stable ascending insertion sort realises on
distinct positions: earlier output means strictly smaller key, or equal key
and smaller (earlier-inserted) index. -/
def keyOrd (key : Nat → ℚ) (i j : Nat) : Prop :=
  key i < key j ∨ (key i = key j ∧ i < j)

/-- The specification of `np.argsort(similarities)` (ascending): an
arrangement of all positions that is weakly ascending in the similarity
scores.  The relative order of equal scores is implementation-defined
(numpy's default sort is not stable in general), so the argsort output
enters `search` as an opaque ordering satisfying exactly this. -/
def isArgsortAsc (sims : List ℚ) (order : List Nat) : Prop :=
  order.Perm (List.range sims.length) ∧
  order.Pairwise (fun i j => sims.getD i 0 ≤ sims.getD j 0)

/-- `search` from `src/rag-system/backend/retriever.py`, with the cosine
similarities `sims` (one per stored chunk, in insertion order) supplied by
the opaque vectorizer and the ordering `order` supplied by `np.argsort`:
`top_indices = order[::-1][:top_k]`, then the positive-similarity filter,
then the result tuples. -/
def search_with (chunks : List StoredChunk) (sims : List ℚ) (order : List Nat)
    (top_k : Nat) : List RetrievedChunk :=
  if chunks.length = 0 then []
  else
    (((order.reverse).take top_k).filter (fun i => 0 < sims.getD i 0)).map
      (fun i =>
        ⟨(chunks.getD i ⟨"", ⟨"", 0, ""⟩⟩).text,
         (chunks.getD i ⟨"", ⟨"", 0, ""⟩⟩).meta,
         sims.getD i 0⟩)

/-- The concrete `search`, with `argsortAsc` realising the argsort (exact
for numpy's insertion-sort regime, which covers every corpus evaluated
concretely below). -/
def search (chunks : List StoredChunk) (sims : List ℚ) (top_k : Nat) :
    List RetrievedChunk :=
  search_with chunks sims (argsortAsc (fun i => sims.getD i 0) sims.length) top_k

/-- The diversity term of the MMR loop: Python starts the running maximum
at `0` and folds `max` over the already-selected indices. -/
def maxSim (sim : Nat → Nat → ℚ) (idx : Nat) (selected : List Nat) : ℚ :=
  selected.foldl (fun d s => max d (sim idx s)) 0

/-- The `while remaining_indices:` loop of `rerank_mmr`.  The fuel argument
only bounds the recursion; every step moves exactly one index from the
remaining pool to the selection, so `remaining.length` steps suffice. -/
def mmrSelectAux (qs : Nat → ℚ) (sim : Nat → Nat → ℚ) (lam : ℚ) :
    Nat → List Nat → List Nat → List Nat
  | 0, selected, _ => selected
  | _ + 1, selected, [] => selected
  | fuel + 1, selected, r :: rs =>
    let remaining := r :: rs
    let mmr_scores := remaining.map
      (fun idx => lam * qs idx - (1 - lam) * maxSim sim idx selected)
    let best := remaining.getD (argmaxIdx mmr_scores) 0
    mmrSelectAux qs sim lam fuel (selected ++ [best]) (remaining.erase best)

/-- `rerank_mmr` from `retriever.py` (both backends run this selection loop;
`qs i` is the query-relevance of chunk `i` and `sim i j` the chunk-to-chunk
similarity, both computed by the opaque vectorizer). -/
def rerank_mmr (qs : Nat → ℚ) (sim : Nat → Nat → ℚ) (lam : ℚ)
    (retrieved_chunks : List RetrievedChunk) : List RetrievedChunk :=
  if retrieved_chunks.length ≤ 1 then retrieved_chunks
  else
    let n := retrieved_chunks.length
    let query_scores := (List.range n).map qs
    let first := argmaxIdx query_scores
    let sel := mmrSelectAux qs sim lam (n - 1) [first] ((List.range n).erase first)
    sel.map (fun i => retrieved_chunks.getD i ⟨"", ⟨"", 0, ""⟩, 0⟩)

/-! ## `memory.py` — conversation memory -/

/-- A message record; the timestamp (`datetime.now().isoformat()`) is an
arbitrary input string, and the metadata dict is opaque. -/
structure Message where
  role : String
  content : String
  timestamp : String
  metadata : List (String × String)
deriving DecidableEq

/-- The in-memory state of `ConversationMemory`: the per-conversation
short-term deques and long-term lists (`none` = key absent from the dict). -/
structure MemState where
  short_term : String → Option (List Message)
  long_term : String → Option (List Message)

/-- The last `n` elements of a list: the content of `deque(maxlen=n)` after
appends (a `maxlen=0` deque stays empty). -/
def takeLast (n : Nat) (l : List α) : List α := l.drop (l.length - n)

/-- Python `l[-k:]` on a list: when `k = 0` the slice bound `-0` equals `0`,
so the WHOLE list is kept; for `k > 0` it is the last `min k (length l)`
elements.  (This differs from `takeLast` at `k = 0`, exactly as the `-0`
slice differs from the deque bound in the source.) -/
def pyListSliceLast (l : List α) (k : Nat) : List α :=
  if k = 0 then l else l.drop (l.length - k)

/-- `add_message` from `memory.py`: append to the short-term deque (bounded
by `max_short_term`, oldest evicted) and to the long-term list, which is
resliced to `long_term[cid][-max_long_term:]` when its length exceeds
`max_long_term` — a slice that keeps EVERYTHING when `max_long_term = 0`.
The synchronous `_save_long_term()` writes the store to disk and does not
change the in-memory state. -/
def add_message (max_short_term max_long_term : Nat) (conversation_id : String)
    (m : Message) (st : MemState) : MemState :=
  let sOld := (st.short_term conversation_id).getD []
  let sNew := takeLast max_short_term (sOld ++ [m])
  let lOld := (st.long_term conversation_id).getD []
  let lApp := lOld ++ [m]
  let lNew := if max_long_term < lApp.length then pyListSliceLast lApp max_long_term
    else lApp
  ⟨fun id => if id = conversation_id then some sNew else st.short_term id,
   fun id => if id = conversation_id then some lNew else st.long_term id⟩

/-- The state after `ConversationMemory.__init__` with no (or an unreadable)
storage file: both dicts empty. -/
def initMem : MemState := ⟨fun _ => none, fun _ => none⟩

/-- States produced by a sequence of `add_message` calls on a fresh store. -/
inductive Reachable (max_short_term max_long_term : Nat) : MemState → Prop
  | init : Reachable max_short_term max_long_term initMem
  | step {st : MemState} (conversation_id : String) (m : Message) :
      Reachable max_short_term max_long_term st →
      Reachable max_short_term max_long_term
        (add_message max_short_term max_long_term conversation_id m st)

/-- `get_context` from `memory.py`: prefer the short-term deque, fall back to
the long-term list; `messages[-max_messages:]` returns everything when
`max_messages = 0` (Python `-0`). -/
def get_context (st : MemState) (conversation_id : String) (max_messages : Nat) :
    List Message :=
  match st.short_term conversation_id with
  | some msgs => if max_messages = 0 then msgs else takeLast max_messages msgs
  | none =>
    match st.long_term conversation_id with
    | some msgs => if max_messages = 0 then msgs else takeLast max_messages msgs
    | none => []

end RagSystem

namespace RagSystem

/-! ## Helper lemmas -/

theorem san_no_relevant : _sanitize_answer no_relevant_msg = no_relevant_msg := by decide

theorem phrase_no_relevant :
    low_confidence_phrases.any (fun p => containsStr (pyLower no_relevant_msg) p) = true := by
  decide

theorem conf_no_relevant (query : String) :
    _calculate_confidence query no_relevant_msg [] = 2/5 := by
  simp [_calculate_confidence, phrase_no_relevant]

theorem gate_no_relevant : should_show_citations no_relevant_msg = false := by decide

theorem mock_empty (query : String) : mock_generate_answer query [] = no_relevant_msg := rfl

theorem mock_empty_result (query : String) (threshold : ℚ) :
    generate_answer_mock query [] threshold =
      ⟨if (2/5 : ℚ) < threshold then upload_first_msg else no_relevant_msg, [], 2/5, 0⟩ := by
  have hne : no_relevant_msg ≠ "" := by decide
  have hmin : min (2/5 : ℚ) (1/2) = (2/5 : ℚ) := by norm_num
  by_cases ht : (2/5 : ℚ) < threshold
  · simp only [generate_answer_mock, generate_answer_with, mock_empty, if_pos hne,
      san_no_relevant, conf_no_relevant, gate_no_relevant, Bool.false_eq_true, if_false,
      List.length_nil, hmin, ht, if_pos, true_and, if_true]
    have hu : upload_first_msg ≠ "" := by decide
    rw [if_pos hu]
  · simp only [generate_answer_mock, generate_answer_with, mock_empty, if_pos hne,
      san_no_relevant, conf_no_relevant, gate_no_relevant, Bool.false_eq_true, if_false,
      List.length_nil, hmin, ht, true_and, if_false]

/-! ## Claim theorems -/

/-- C1 (amended): with an empty corpus (retrieval returned zero chunks) and
the deterministic mock generator, the citation list is empty, the confidence
is exactly 0.4, and the answer is the fixed "upload a document" message only
when 0.4 is below the configured threshold; otherwise (in particular for the
default threshold 0.2) the answer is the mock's "No relevant information
found in the documents." message. -/
theorem C1_empty_corpus_amended (query : String) (threshold : ℚ) :
    generate_answer_mock query [] threshold =
      ⟨if (2/5 : ℚ) < threshold then upload_first_msg else no_relevant_msg, [], 2/5, 0⟩ :=
  mock_empty_result query threshold

/-- C1 counterexample: with the empty corpus and the default threshold 0.2
the pipeline's answer is NOT the fixed "upload a document" message, and the
confidence 0.4 is neither 0 nor below the threshold. -/
theorem C1_counterexample :
    (generate_answer_mock "What is this?" [] (1/5)).answer = no_relevant_msg ∧
    (generate_answer_mock "What is this?" [] (1/5)).answer ≠ upload_first_msg ∧
    (generate_answer_mock "What is this?" [] (1/5)).citations = [] ∧
    ¬((generate_answer_mock "What is this?" [] (1/5)).confidence = 0 ∨
      (generate_answer_mock "What is this?" [] (1/5)).confidence ≤ 1/5) := by
  have h := mock_empty_result "What is this?" (1/5)
  have hlt : ¬((2/5 : ℚ) < 1/5) := by norm_num
  rw [h, if_neg hlt]
  refine ⟨rfl, by decide, rfl, ?_⟩
  push_neg
  constructor <;> norm_num

/-- C2: evaluation of `chunk_text` at the failing input.  With `overlap = 0`
the Python slice `current_chunk[-0:]` is the whole string, so the second
chunk begins with the entire first chunk: consecutive chunks share leading
text although the spec's overlap tail `floor(chunk_size * 0 / 100) = 0`
characters should be empty. -/
theorem C2_overlap_zero_bug :
    chunk_text "Alpha beta gamma delta epsilon. Zeta eta theta iota kappa." 3 0 =
      ["Alpha beta gamma delta epsilon.",
       "Alpha beta gamma delta epsilon. Zeta eta theta iota kappa."] ∧
    ("Alpha beta gamma delta epsilon.").data <+:
      ("Alpha beta gamma delta epsilon. Zeta eta theta iota kappa.").data ∧
    ("Alpha beta gamma delta epsilon." : String) ≠ "" := by
  refine ⟨by decide, by decide, by decide⟩

/-- C3 (amended): the chunker's token estimate is
`max(1, floor(wordCount(s) / 1.3))` — Python's `int()` truncates the
quotient rather than rounding it to the nearest integer. -/
theorem C3_token_estimate_floor (s : String) :
    (estimate_tokens s : ℤ) = max 1 ⌊(wordCount s : ℚ) / (13/10)⌋ := by
  have h1 : ((wordCount s : ℚ)) / (13/10) =
      ((wordCount s * 10 : ℕ) : ℚ) / ((13 : ℕ) : ℚ) := by
    push_cast; ring
  rw [h1, Rat.floor_natCast_div_natCast, estimate_tokens]
  rw [Nat.cast_max]
  norm_num [Int.ofNat_div]

/-- C3 counterexample: on a two-word string the code's estimate is
`int(2 / 1.3) = 1` while the claimed nearest-integer rounding gives
`round(2 / 1.3) = 2`. -/
theorem C3_counterexample :
    estimate_tokens "a b" = 1 ∧ claimed_estimate_tokens "a b" = 2 ∧
    (1 : ℤ) ≠ 2 := by
  refine ⟨by decide, ?_, by decide⟩
  have h : wordCount "a b" = 2 := by decide
  rw [claimed_estimate_tokens, h, round_eq]
  norm_num

/-- C6: both `_calculate_confidence` variants always score within
`[0.30, 0.95]`, and an answer containing "cannot find" (case-insensitively)
scores exactly 0.4, before the citation gate is applied. -/
theorem C6_confidence_bounds (query answer : String) (chunks : List RetrievedChunk) :
    (3/10 ≤ _calculate_confidence query answer chunks ∧
      _calculate_confidence query answer chunks ≤ 19/20) ∧
    (3/10 ≤ calculate_confidence_rs query answer chunks ∧
      calculate_confidence_rs query answer chunks ≤ 19/20) ∧
    (containsStr (pyLower answer) "cannot find" = true →
      _calculate_confidence query answer chunks = 2/5 ∧
      calculate_confidence_rs query answer chunks = 2/5) := by
  refine ⟨?_, ?_, ?_⟩
  · rw [_calculate_confidence]
    by_cases hc : low_confidence_phrases.any (fun p => containsStr (pyLower answer) p) = true
    · rw [if_pos hc]; constructor <;> norm_num
    · rw [if_neg hc]
      exact ⟨le_min (by norm_num) (le_max_left _ _), min_le_left _ _⟩
  · rw [calculate_confidence_rs]
    by_cases hc : low_confidence_phrases_rs.any (fun p => containsStr (pyLower answer) p) = true
    · rw [if_pos hc]; constructor <;> norm_num
    · rw [if_neg hc]
      exact ⟨le_min (by norm_num) (le_max_left _ _), min_le_left _ _⟩
  · intro h
    have h1 : low_confidence_phrases.any (fun p => containsStr (pyLower answer) p) = true :=
      List.any_eq_true.mpr ⟨"cannot find", by decide, h⟩
    have h2 : low_confidence_phrases_rs.any (fun p => containsStr (pyLower answer) p) = true :=
      List.any_eq_true.mpr ⟨"cannot find", by decide, h⟩
    rw [_calculate_confidence, if_pos h1, calculate_confidence_rs, if_pos h2]
    exact ⟨rfl, rfl⟩

/-- C6 witness: the theorem applied at a concrete answer containing
"Cannot Find". -/
theorem C6_confidence_bounds_witness :
    _calculate_confidence "q" "We Cannot Find that here" [] = 2/5 ∧
    calculate_confidence_rs "q" "We Cannot Find that here" [] = 2/5 :=
  (C6_confidence_bounds "q" "We Cannot Find that here" []).2.2 (by decide)

/-- C8 (amended): when at least one pattern replacement occurred and the
cleaned-up result (markers deleted, whitespace collapsed, stripped) is empty
or shorter than 20 characters, `_sanitize_answer` returns the canned safe
fallback message.  (Without any replacement the input is returned unchanged
even when shorter than 20 characters, and the single-pass replacement can
splice the surrounding text into a new pattern match, so the output is not
always free of pattern matches.) -/
theorem C8_sanitize_fallback (answer : String)
    (h1 : hasSub (applyAllPatterns answer.data) redactedChars = true)
    (h2 : trimL (collapseWs (removeRedacted (applyAllPatterns answer.data))) = [] ∨
      (trimL (collapseWs (removeRedacted (applyAllPatterns answer.data)))).length < 20) :
    _sanitize_answer answer = safe_fallback := by
  rw [_sanitize_answer]
  simp only [h1, if_true]
  rw [if_pos h2]

/-- C8 witness: the theorem applied at "gemini", whose redaction leaves the
empty string. -/
theorem C8_sanitize_fallback_witness : _sanitize_answer "gemini" = safe_fallback :=
  C8_sanitize_fallback "gemini" (by decide) (by decide)

/-- C8 counterexample: deleting the redaction of "gemini" from
"The api gemini key …" splices "api" and "key" into a new match of the
sensitive pattern `\bapi[_\s]?key\b`, so the sanitized output still contains
a sensitive-pattern match; and the two-character answer "hi" is returned
unchanged — not replaced by the fallback — because no replacement occurred,
although it is far below the 20-character minimum. -/
theorem C8_counterexample :
    containsSensitive
      (_sanitize_answer "The api gemini key is hidden somewhere in the building today.").data
        = true ∧
    _sanitize_answer "hi" = "hi" ∧
    ("hi" : String).length < 20 ∧
    ("hi" : String) ≠ safe_fallback := by
  refine ⟨by decide, by decide, by decide, by decide⟩

/-- C10: `add_message` for one conversation id leaves the in-memory
short-term window and long-term log of every other conversation id
unchanged. -/
theorem C10_frame (max_short_term max_long_term : Nat) (conversation_id : String)
    (m : Message) (st : MemState) (other : String) (h : other ≠ conversation_id) :
    (add_message max_short_term max_long_term conversation_id m st).short_term other =
        st.short_term other ∧
    (add_message max_short_term max_long_term conversation_id m st).long_term other =
        st.long_term other := by
  simp [add_message, h]

/-- C10 witness: the frame theorem applied at two concrete distinct
conversation ids. -/
theorem C10_frame_witness :
    (add_message 10 100 "a" ⟨"user", "hi", "t0", []⟩ initMem).short_term "b" =
        initMem.short_term "b" ∧
    (add_message 10 100 "a" ⟨"user", "hi", "t0", []⟩ initMem).long_term "b" =
        initMem.long_term "b" :=
  C10_frame 10 100 "a" ⟨"user", "hi", "t0", []⟩ initMem "b" (by decide)

theorem gate_please_upload (a : String)
    (h : containsStr (pyLower a) "please upload" = true) :
    should_show_citations a = false := by
  rw [should_show_citations]
  have hany : no_citation_phrases.any (fun p => containsStr (pyLower a) p) = true :=
    List.any_eq_true.mpr ⟨"please upload", by decide, h⟩
  rw [hany]
  rfl

theorem conf_empty_le_half (q a : String) : _calculate_confidence q a [] ≤ 1/2 := by
  rw [_calculate_confidence]
  by_cases hc : low_confidence_phrases.any (fun p => containsStr (pyLower a) p) = true
  · rw [if_pos hc]; norm_num
  · rw [if_neg hc]
    refine le_trans (min_le_right _ _) (max_le (by norm_num) ?_)
    simp only [ne_eq, not_true_eq_false, List.length_nil, Nat.cast_zero, zero_mul,
      if_false]
    have hsb : min (1/10 : ℚ) 0 = 0 := by norm_num
    rw [hsb]
    split_ifs <;> norm_num

theorem gaw_citations (q a0 : String) (c : List RetrievedChunk) (t : ℚ) :
    (generate_answer_with q a0 c t).citations =
      if should_show_citations (if a0 ≠ "" then _sanitize_answer a0 else a0) then
        _extract_citations c
      else [] := rfl

theorem gaw_confidence (q a0 : String) (c : List RetrievedChunk) (t : ℚ) :
    (generate_answer_with q a0 c t).confidence =
      (let a1 := if a0 ≠ "" then _sanitize_answer a0 else a0
       let conf0 : ℚ := if a1 ≠ "" then _calculate_confidence q a1 c else 0
       if should_show_citations a1 then conf0 else min conf0 (1/2)) := rfl

theorem gaw_answer (q a0 : String) (c : List RetrievedChunk) (t : ℚ) :
    (generate_answer_with q a0 c t).answer =
      (let a1 := if a0 ≠ "" then _sanitize_answer a0 else a0
       let conf0 : ℚ := if a1 ≠ "" then _calculate_confidence q a1 c else 0
       let conf1 := if should_show_citations a1 then conf0 else min conf0 (1/2)
       let answer2 := if c.length = 0 ∧ conf1 < t then upload_first_msg else a1
       if answer2 ≠ "" then answer2 else "Unable to generate answer") := rfl

/-- C7: whenever the answer returned by `generate_answer` contains
"please upload" (case-insensitively), the returned citation list is empty
and the returned confidence is at most 0.5. -/
theorem C7_please_upload_gate (query answer0 : String) (chunks : List RetrievedChunk)
    (threshold : ℚ)
    (h : containsStr
        (pyLower (generate_answer_with query answer0 chunks threshold).answer)
        "please upload" = true) :
    (generate_answer_with query answer0 chunks threshold).citations = [] ∧
    (generate_answer_with query answer0 chunks threshold).confidence ≤ 1/2 := by
  rw [gaw_answer] at h
  rw [gaw_citations, gaw_confidence]
  by_cases hsc : should_show_citations
      (if answer0 ≠ "" then _sanitize_answer answer0 else answer0) = true
  · -- the citation gate is open; the answer shown must be the override
    by_cases hov : chunks.length = 0 ∧
        (if (if answer0 ≠ "" then _sanitize_answer answer0 else answer0) ≠ "" then
          _calculate_confidence query
            (if answer0 ≠ "" then _sanitize_answer answer0 else answer0) chunks
         else 0) < threshold
    · have hchunks : chunks = [] := List.length_eq_zero.mp hov.1
      subst hchunks
      refine ⟨by simp [hsc, _extract_citations, extractCitationsAux], ?_⟩
      simp only [hsc, if_true]
      by_cases ha1 : (if answer0 ≠ "" then _sanitize_answer answer0 else answer0) ≠ ""
      · rw [if_pos ha1]
        exact conf_empty_le_half _ _
      · rw [if_neg ha1]
        norm_num
    · -- no override: the shown answer is the sanitized answer itself
      simp only [hsc, if_true] at h ⊢
      rw [if_neg hov] at h
      by_cases ha1 : (if answer0 ≠ "" then _sanitize_answer answer0 else answer0) ≠ ""
      · rw [if_pos ha1] at h
        have := gate_please_upload _ h
        rw [this] at hsc
        exact absurd hsc (by decide)
      · rw [if_neg ha1] at h
        have : containsStr (pyLower "Unable to generate answer") "please upload" = false := by
          decide
        rw [this] at h
        exact absurd h (by decide)
  · -- the citation gate is closed: citations are empty and the confidence capped
    have hfalse : should_show_citations
        (if answer0 ≠ "" then _sanitize_answer answer0 else answer0) = false :=
      Bool.eq_false_iff.mpr hsc
    refine ⟨by simp only [hfalse, Bool.false_eq_true, if_false], ?_⟩
    simp only [hfalse, Bool.false_eq_true, if_false]
    exact min_le_right _ _

/-- C7 witness: the theorem applied at a concrete raw answer containing
"please upload", with a non-empty chunk list. -/
theorem C7_please_upload_gate_witness :
    (generate_answer_with "q" "Sure thing: please upload the other file now"
        [⟨"some text", ⟨"doc", 1, "doc_0"⟩, 1⟩] (1/5)).citations = [] ∧
    (generate_answer_with "q" "Sure thing: please upload the other file now"
        [⟨"some text", ⟨"doc", 1, "doc_0"⟩, 1⟩] (1/5)).confidence ≤ 1/2 :=
  C7_please_upload_gate "q" "Sure thing: please upload the other file now"
    [⟨"some text", ⟨"doc", 1, "doc_0"⟩, 1⟩] (1/5) (by decide)

theorem argmaxAux_lt (l : List ℚ) : ∀ (bi : Nat) (bv : ℚ) (i : Nat), bi < i →
    argmaxAux l bi bv i < i + l.length := by
  induction l with
  | nil => intro bi bv i h; simpa [argmaxAux] using h
  | cons x xs ih =>
    intro bi bv i h
    rw [argmaxAux]
    by_cases hc : bv < x
    · rw [if_pos hc]
      have := ih i x (i + 1) (Nat.lt_succ_self i)
      simp only [List.length_cons]
      omega
    · rw [if_neg hc]
      have := ih bi bv (i + 1) (Nat.lt_succ_of_lt h)
      simp only [List.length_cons]
      omega

theorem argmaxIdx_lt : ∀ (l : List ℚ), l ≠ [] → argmaxIdx l < l.length
  | [], h => absurd rfl h
  | x :: xs, _ => by
    rw [argmaxIdx]
    have := argmaxAux_lt xs 0 x 1 Nat.one_pos
    simpa [List.length_cons, Nat.add_comm] using this

theorem getD_mem_of_lt : ∀ (l : List α) (n : Nat) (d : α), n < l.length → l.getD n d ∈ l
  | a :: l, 0, _, _ => List.mem_cons_self a l
  | a :: l, n + 1, d, h =>
    List.mem_cons_of_mem a (getD_mem_of_lt l n d (by simpa using h))

theorem getD_range_map : ∀ (l : List α) (d : α),
    (List.range l.length).map (fun i => l.getD i d) = l
  | [], _ => rfl
  | a :: l, d => by
    rw [List.length_cons, List.range_succ_eq_map, List.map_cons, List.map_map]
    simp only [List.getD_cons_zero]
    congr 1
    have hf : ((fun i => (a :: l).getD i d) ∘ Nat.succ) = fun i => l.getD i d := by
      funext i
      simp [Function.comp, List.getD_cons_succ]
    rw [hf, getD_range_map l d]

theorem mmrSelectAux_perm (qs : Nat → ℚ) (sim : Nat → Nat → ℚ) (lam : ℚ) :
    ∀ (fuel : Nat) (selected remaining : List Nat), remaining.length ≤ fuel →
      (mmrSelectAux qs sim lam fuel selected remaining).Perm (selected ++ remaining) := by
  intro fuel
  induction fuel with
  | zero =>
    intro selected remaining h
    have hnil : remaining = [] := List.length_eq_zero.mp (Nat.le_zero.mp h)
    subst hnil
    simp [mmrSelectAux]
  | succ fuel ih =>
    intro selected remaining h
    match remaining with
    | [] => simp [mmrSelectAux]
    | r :: rs =>
      rw [mmrSelectAux]
      have hlen : argmaxIdx ((r :: rs).map
          (fun idx => lam * qs idx - (1 - lam) * maxSim sim idx selected)) <
          (r :: rs).length := by
        have hne : ((r :: rs).map
            (fun idx => lam * qs idx - (1 - lam) * maxSim sim idx selected)) ≠ [] := by
          simp
        have := argmaxIdx_lt _ hne
        simpa using this
      have hmem : (r :: rs).getD (argmaxIdx ((r :: rs).map
          (fun idx => lam * qs idx - (1 - lam) * maxSim sim idx selected))) 0 ∈ r :: rs :=
        getD_mem_of_lt _ _ _ hlen
      have herase : ((r :: rs).erase ((r :: rs).getD (argmaxIdx ((r :: rs).map
          (fun idx => lam * qs idx - (1 - lam) * maxSim sim idx selected))) 0)).length ≤
          fuel := by
        rw [List.length_erase_of_mem hmem]
        simpa using h
      refine (ih _ _ herase).trans ?_
      rw [List.append_assoc]
      exact List.Perm.append_left selected (List.perm_cons_erase hmem).symm

/-- C4: for every query-relevance and chunk-similarity data, every λ in
[0, 1] and every result list, `rerank_mmr` returns a permutation of its
input (same elements, same multiplicities), and returns the input unchanged
when it has at most one element. -/
theorem C4_mmr_permutation (qs : Nat → ℚ) (sim : Nat → Nat → ℚ) (lam : ℚ)
    (results : List RetrievedChunk) (h : 0 ≤ lam ∧ lam ≤ 1) :
    (rerank_mmr qs sim lam results).Perm results ∧
    (results.length ≤ 1 → rerank_mmr qs sim lam results = results) := by
  constructor
  · rw [rerank_mmr]
    by_cases hle : results.length ≤ 1
    · rw [if_pos hle]
    · rw [if_neg hle]
      have hn : results.length ≠ 0 := by omega
      have hqs_ne : ((List.range results.length).map qs) ≠ [] := by
        simp [List.range_eq_nil, hn]
      have hfirst : argmaxIdx ((List.range results.length).map qs) < results.length := by
        have := argmaxIdx_lt _ hqs_ne
        simpa using this
      have hfmem : argmaxIdx ((List.range results.length).map qs) ∈
          List.range results.length := List.mem_range.mpr hfirst
      have herase_len : ((List.range results.length).erase
          (argmaxIdx ((List.range results.length).map qs))).length ≤
          results.length - 1 := by
        rw [List.length_erase_of_mem hfmem, List.length_range]
      have hperm := mmrSelectAux_perm qs sim lam (results.length - 1)
        [argmaxIdx ((List.range results.length).map qs)]
        ((List.range results.length).erase
          (argmaxIdx ((List.range results.length).map qs))) herase_len
      have hsel : (mmrSelectAux qs sim lam (results.length - 1)
          [argmaxIdx ((List.range results.length).map qs)]
          ((List.range results.length).erase
            (argmaxIdx ((List.range results.length).map qs)))).Perm
          (List.range results.length) := by
        refine hperm.trans ?_
        exact (List.perm_cons_erase hfmem).symm
      have hmap := hsel.map (fun i => results.getD i ⟨"", ⟨"", 0, ""⟩, 0⟩)
      rw [getD_range_map results ⟨"", ⟨"", 0, ""⟩, 0⟩] at hmap
      exact hmap
  · intro hle
    rw [rerank_mmr, if_pos hle]

/-- C4 witness: the permutation theorem applied at λ = 1/2 and a concrete
two-element result list. -/
theorem C4_mmr_permutation_witness :
    (0 ≤ (1/2 : ℚ) ∧ (1/2 : ℚ) ≤ 1) ∧
    (rerank_mmr (fun _ => 0) (fun _ _ => 0) (1/2)
        [⟨"a", ⟨"d", 1, "d_0"⟩, 1⟩, ⟨"b", ⟨"d", 2, "d_1"⟩, 1⟩]).Perm
      [⟨"a", ⟨"d", 1, "d_0"⟩, 1⟩, ⟨"b", ⟨"d", 2, "d_1"⟩, 1⟩] :=
  ⟨by norm_num,
    (C4_mmr_permutation (fun _ => 0) (fun _ _ => 0) (1/2)
      [⟨"a", ⟨"d", 1, "d_0"⟩, 1⟩, ⟨"b", ⟨"d", 2, "d_1"⟩, 1⟩] (by norm_num)).1⟩

theorem insertAsc_mem (key : Nat → ℚ) (i : Nat) :
    ∀ (l : List Nat) (x : Nat), x ∈ insertAsc key i l ↔ x = i ∨ x ∈ l
  | [], x => by simp [insertAsc]
  | j :: l, x => by
    rw [insertAsc]
    by_cases hc : key j ≤ key i
    · rw [if_pos hc]
      rw [List.mem_cons, insertAsc_mem key i l x, List.mem_cons]
      tauto
    · rw [if_neg hc]
      rw [List.mem_cons, List.mem_cons]

theorem insertAsc_pairwise (key : Nat → ℚ) (i : Nat) :
    ∀ (l : List Nat), l.Pairwise (keyOrd key) → (∀ j ∈ l, j < i) →
      (insertAsc key i l).Pairwise (keyOrd key)
  | [], _, _ => by simp [insertAsc]
  | j :: l, hp, hlt => by
    rw [insertAsc]
    rcases List.pairwise_cons.mp hp with ⟨hj, hl⟩
    by_cases hc : key j ≤ key i
    · rw [if_pos hc]
      refine List.pairwise_cons.mpr ⟨?_, insertAsc_pairwise key i l hl
        (fun x hx => hlt x (List.mem_cons_of_mem j hx))⟩
      intro x hx
      rcases (insertAsc_mem key i l x).mp hx with rfl | hxl
      · rcases lt_or_eq_of_le hc with hlt' | heq
        · exact Or.inl hlt'
        · exact Or.inr ⟨heq, hlt j (List.mem_cons_self _ _)⟩
      · exact hj x hxl
    · rw [if_neg hc]
      push_neg at hc
      refine List.pairwise_cons.mpr ⟨?_, hp⟩
      intro x hx
      rcases List.mem_cons.mp hx with rfl | hxl
      · exact Or.inl hc
      · rcases hj x hxl with h1 | h2
        · exact Or.inl (hc.trans h1)
        · exact Or.inl (h2.1 ▸ hc)

theorem foldl_insertAsc_pairwise (key : Nat → ℚ) :
    ∀ (l : List Nat) (acc : List Nat), acc.Pairwise (keyOrd key) →
      (∀ j ∈ acc, ∀ i ∈ l, j < i) → l.Pairwise (· < ·) →
      (l.foldl (fun acc i => insertAsc key i acc) acc).Pairwise (keyOrd key)
  | [], _, h1, _, _ => h1
  | i :: l, acc, h1, h2, h3 => by
    rw [List.foldl_cons]
    rcases List.pairwise_cons.mp h3 with ⟨hi, hl⟩
    refine foldl_insertAsc_pairwise key l (insertAsc key i acc) ?_ ?_ hl
    · exact insertAsc_pairwise key i acc h1 (fun j hj => h2 j hj i (List.mem_cons_self _ _))
    · intro j hj i' hi'
      rcases (insertAsc_mem key i acc j).mp hj with rfl | hja
      · exact hi i' hi'
      · exact h2 j hja i' (List.mem_cons_of_mem _ hi')

theorem argsortAsc_pairwise (key : Nat → ℚ) (n : Nat) :
    (argsortAsc key n).Pairwise (keyOrd key) := by
  rw [argsortAsc]
  exact foldl_insertAsc_pairwise key (List.range n) [] (by simp) (by simp)
    (List.pairwise_lt_range n)

theorem insertAsc_perm (key : Nat → ℚ) (i : Nat) :
    ∀ l : List Nat, (insertAsc key i l).Perm (i :: l)
  | [] => List.Perm.refl _
  | j :: l => by
    rw [insertAsc]
    by_cases hc : key j ≤ key i
    · rw [if_pos hc]
      exact ((insertAsc_perm key i l).cons j).trans (List.Perm.swap i j l)
    · rw [if_neg hc]

theorem foldl_insertAsc_perm (key : Nat → ℚ) :
    ∀ (l acc : List Nat),
      (l.foldl (fun acc i => insertAsc key i acc) acc).Perm (acc ++ l)
  | [], acc => by simp
  | i :: l, acc => by
    rw [List.foldl_cons]
    refine (foldl_insertAsc_perm key l (insertAsc key i acc)).trans ?_
    refine (List.Perm.append_right l (insertAsc_perm key i acc)).trans ?_
    exact List.perm_middle.symm

theorem argsortAsc_perm (key : Nat → ℚ) (n : Nat) :
    (argsortAsc key n).Perm (List.range n) := by
  rw [argsortAsc]
  simpa using foldl_insertAsc_perm key (List.range n) []

theorem argsortAsc_isArgsort (sims : List ℚ) :
    isArgsortAsc sims (argsortAsc (fun i => sims.getD i 0) sims.length) := by
  constructor
  · exact argsortAsc_perm _ _
  · refine (argsortAsc_pairwise _ _).imp ?_
    intro a b hab
    simp only [keyOrd] at hab
    rcases hab with h1 | h2
    · exact le_of_lt h1
    · exact le_of_eq h2.1

/-- C5 (amended): for EVERY ordering `np.argsort` may return — any weakly
ascending arrangement of all positions, numpy's tie order being
implementation-defined — `search` emits its results in weakly DESCENDING
similarity order; and the concrete `search` realises the argsort with
`argsortAsc`, which is such an admissible ordering.  The original claim's
stable tie-breaking by insertion order is false (see the counterexample:
two equal scores come back in reverse insertion order). -/
theorem C5_search_order (chunks : List StoredChunk) (sims : List ℚ)
    (order : List Nat) (top_k : Nat) (horder : isArgsortAsc sims order)
    (h : sims.length = chunks.length) :
    ((search_with chunks sims order top_k).map (fun r => r.score)).Pairwise
      (fun a b => b ≤ a) ∧
    search chunks sims top_k =
      search_with chunks sims (argsortAsc (fun i => sims.getD i 0) sims.length)
        top_k ∧
    isArgsortAsc sims (argsortAsc (fun i => sims.getD i 0) sims.length) := by
  refine ⟨?_, rfl, argsortAsc_isArgsort sims⟩
  rw [search_with]
  by_cases hz : chunks.length = 0
  · rw [if_pos hz]
    exact List.Pairwise.nil
  · rw [if_neg hz]
    rw [List.map_map]
    refine List.pairwise_map.mpr ?_
    have h1 : (order.reverse).Pairwise (fun i j => sims.getD j 0 ≤ sims.getD i 0) :=
      List.pairwise_reverse.mpr horder.2
    exact ((h1.sublist (List.take_sublist _ _)).sublist (List.filter_sublist _))

/-- C5 witness: the ordering theorem applied at a concrete one-chunk corpus
with the ordering `[0]`. -/
theorem C5_search_order_witness :
    ((search_with [⟨"a", ⟨"doc", 1, "doc_0"⟩⟩] [1] [0] 5).map
        (fun r => r.score)).Pairwise (fun a b => b ≤ a) ∧
    search [⟨"a", ⟨"doc", 1, "doc_0"⟩⟩] [1] 5 =
      search_with [⟨"a", ⟨"doc", 1, "doc_0"⟩⟩] [1]
        (argsortAsc (fun i => List.getD [(1 : ℚ)] i 0) (List.length [(1 : ℚ)])) 5 ∧
    isArgsortAsc [1]
      (argsortAsc (fun i => List.getD [(1 : ℚ)] i 0) (List.length [(1 : ℚ)])) :=
  C5_search_order [⟨"a", ⟨"doc", 1, "doc_0"⟩⟩] [1] [0] 5 ⟨by decide, by decide⟩ rfl

/-- C5 counterexample: two chunks with equal similarity come back in
REVERSE insertion order — the claim's stable tie-breaking by insertion
order does not hold. -/
theorem C5_counterexample :
    search [⟨"a", ⟨"doc", 1, "doc_0"⟩⟩, ⟨"b", ⟨"doc", 2, "doc_1"⟩⟩] [1, 1] 5 =
      [⟨"b", ⟨"doc", 2, "doc_1"⟩, 1⟩, ⟨"a", ⟨"doc", 1, "doc_0"⟩, 1⟩] ∧
    search [⟨"a", ⟨"doc", 1, "doc_0"⟩⟩, ⟨"b", ⟨"doc", 2, "doc_1"⟩⟩] [1, 1] 5 ≠
      [⟨"a", ⟨"doc", 1, "doc_0"⟩, 1⟩, ⟨"b", ⟨"doc", 2, "doc_1"⟩, 1⟩] := by
  refine ⟨by decide, by decide⟩

theorem takeLast_length_le (n : Nat) (l : List α) : (takeLast n l).length ≤ n := by
  simp only [takeLast, List.length_drop]
  omega

theorem takeLast_suffix (n : Nat) (l : List α) : takeLast n l <:+ l :=
  List.drop_suffix _ _

theorem takeLast_length_eq (n : Nat) (l : List α) (h : n ≤ l.length) :
    (takeLast n l).length = n := by
  simp only [takeLast, List.length_drop]
  omega

theorem suffix_append_right {α : Type} {l₁ l₂ : List α} (t : List α) (h : l₁ <:+ l₂) :
    l₁ ++ t <:+ l₂ ++ t := by
  obtain ⟨u, rfl⟩ := h
  exact ⟨u, (List.append_assoc u l₁ t).symm⟩

theorem suffix_of_both_suffix {α : Type} {l₁ l₂ l₃ : List α} (h1 : l₁ <:+ l₃)
    (h2 : l₂ <:+ l₃) (hl : l₁.length ≤ l₂.length) : l₁ <:+ l₂ := by
  obtain ⟨a, ha⟩ := h1
  obtain ⟨b, hb⟩ := h2
  have h1' : l₁ = l₃.drop a.length := by rw [← ha, List.drop_left]
  have h2' : l₂ = l₃.drop b.length := by rw [← hb, List.drop_left]
  have e1 : a.length + l₁.length = l₃.length := by rw [← ha, List.length_append]
  have e2 : b.length + l₂.length = l₃.length := by rw [← hb, List.length_append]
  rw [h1', h2']
  exact List.drop_suffix_drop_left _ (by omega)

theorem add_message_short (S L : Nat) (cid : String) (m : Message) (st : MemState)
    (id : String) :
    (add_message S L cid m st).short_term id =
      if id = cid then some (takeLast S ((st.short_term cid).getD [] ++ [m]))
      else st.short_term id := rfl

theorem add_message_long (S L : Nat) (cid : String) (m : Message) (st : MemState)
    (id : String) :
    (add_message S L cid m st).long_term id =
      if id = cid then
        some (if L < ((st.long_term cid).getD [] ++ [m]).length then
          pyListSliceLast ((st.long_term cid).getD [] ++ [m]) L
        else ((st.long_term cid).getD [] ++ [m]))
      else st.long_term id := rfl

theorem pyListSliceLast_of_pos {α : Type} (l : List α) (k : Nat) (h : k ≠ 0) :
    pyListSliceLast l k = takeLast k l := by
  rw [pyListSliceLast, if_neg h]
  rfl

/-- C9 (amended): assuming `max_long_term ≥ max_short_term` AND
`max_long_term ≥ 1`, after every sequence of `add_message` calls on a fresh
store, each conversation's short-term window holds at most `max_short_term`
messages, its long-term log holds at most `max_long_term` messages, and the
short-term window is a suffix of the long-term log.  (At
`max_long_term = 0` the bound fails in the program: the trim slice `[-0:]`
keeps the entire log — see the counterexample.) -/
theorem C9_memory_invariant (max_short_term max_long_term : Nat) (st : MemState)
    (hst : Reachable max_short_term max_long_term st)
    (hSL : max_short_term ≤ max_long_term) (hL1 : 1 ≤ max_long_term)
    (conversation_id : String) :
    ((st.short_term conversation_id).getD []).length ≤ max_short_term ∧
    ((st.long_term conversation_id).getD []).length ≤ max_long_term ∧
    ((st.short_term conversation_id).getD []) <:+
      ((st.long_term conversation_id).getD []) := by
  induction hst with
  | init =>
    refine ⟨?_, ?_, ?_⟩ <;> simp [initMem]
  | @step stp cid m hst ih =>
    rcases ih with ⟨ihs, ihl, ihsuf⟩
    rw [add_message_short, add_message_long]
    by_cases hid : conversation_id = cid
    · subst hid
      rw [if_pos rfl, if_pos rfl]
      simp only [Option.getD_some]
      refine ⟨takeLast_length_le _ _, ?_, ?_⟩
      · by_cases hL : max_long_term <
            ((stp.long_term conversation_id).getD [] ++ [m]).length
        · rw [if_pos hL, pyListSliceLast_of_pos _ _ (by omega)]
          exact takeLast_length_le _ _
        · rw [if_neg hL]
          omega
      · have hs1 : takeLast max_short_term ((stp.short_term conversation_id).getD [] ++ [m])
            <:+ (stp.long_term conversation_id).getD [] ++ [m] :=
          (takeLast_suffix _ _).trans (suffix_append_right [m] ihsuf)
        by_cases hL : max_long_term <
            ((stp.long_term conversation_id).getD [] ++ [m]).length
        · rw [if_pos hL, pyListSliceLast_of_pos _ _ (by omega)]
          refine suffix_of_both_suffix hs1 (takeLast_suffix _ _) ?_
          have h1 := takeLast_length_le max_short_term
            ((stp.short_term conversation_id).getD [] ++ [m])
          have h2 := takeLast_length_eq max_long_term
            ((stp.long_term conversation_id).getD [] ++ [m]) (le_of_lt hL)
          omega
        · rw [if_neg hL]
          exact hs1
    · rw [if_neg hid, if_neg hid]
      exact ⟨ihs, ihl, ihsuf⟩

/-- C9 witness: the invariant applied to the state reached by two
`add_message` calls with `max_short_term = 2 ≤ max_long_term = 3` (and
`max_long_term = 3 ≥ 1`). -/
theorem C9_memory_invariant_witness :
    (((add_message 2 3 "c" ⟨"assistant", "ok", "t1", []⟩
        (add_message 2 3 "c" ⟨"user", "hi", "t0", []⟩ initMem)).short_term "c").getD
          []).length ≤ 2 ∧
    (((add_message 2 3 "c" ⟨"assistant", "ok", "t1", []⟩
        (add_message 2 3 "c" ⟨"user", "hi", "t0", []⟩ initMem)).long_term "c").getD
          []).length ≤ 3 ∧
    (((add_message 2 3 "c" ⟨"assistant", "ok", "t1", []⟩
        (add_message 2 3 "c" ⟨"user", "hi", "t0", []⟩ initMem)).short_term "c").getD []) <:+
    (((add_message 2 3 "c" ⟨"assistant", "ok", "t1", []⟩
        (add_message 2 3 "c" ⟨"user", "hi", "t0", []⟩ initMem)).long_term "c").getD []) :=
  C9_memory_invariant 2 3 _
    (Reachable.step "c" ⟨"assistant", "ok", "t1", []⟩
      (Reachable.step "c" ⟨"user", "hi", "t0", []⟩ Reachable.init))
    (by norm_num) (by norm_num) "c"

/-- C9 counterexample: at `max_short_term = max_long_term = 0` (the claim's
hypothesis `maxLongTerm ≥ maxShortTerm` holds) one `add_message` leaves a
long-term log of length 1, exceeding the claimed `max_long_term` bound:
Python's trim `long_term[cid][-0:]` keeps the whole list. -/
theorem C9_counterexample :
    (0 : Nat) ≤ 0 ∧
    Reachable 0 0 (add_message 0 0 "c" ⟨"user", "hi", "t0", []⟩ initMem) ∧
    (((add_message 0 0 "c" ⟨"user", "hi", "t0", []⟩ initMem).long_term "c").getD
      []).length = 1 ∧
    ¬((((add_message 0 0 "c" ⟨"user", "hi", "t0", []⟩ initMem).long_term "c").getD
      []).length ≤ 0) :=
  ⟨Nat.le_refl 0,
   Reachable.step "c" ⟨"user", "hi", "t0", []⟩ Reachable.init,
   by decide, by decide⟩

end RagSystem
